import Mathlib

/-!
Shallow embedding of the storage / summary / settings core of the
Dlog-Reminder ("Work Logger") repository, translated from
`src/data_store.py`, `src/config.py` and `src/settings_dialog.py`.

A day's CSV store is modelled as `Option CsvFile`: `none` when the file does
not exist, `some rows` otherwise, where each row is the list of its cell
strings (the CSV encode/decode layer is abstracted; `csv.writer.writerow`
appends one row, `csv.reader` yields the rows).  Python `str`-or-`None`
values (as produced by `csv.DictReader`'s `restval`) are modelled as
`Option String` with `none` standing for Python `None`.
-/

namespace WorkLogger

/-- One CSV record, list of cell strings. -/
abbrev Row := List String

/-- Contents of one day's CSV file: the rows in file order (header included,
when present). -/
abbrev CsvFile := List Row

/-- Model of `DataStore.CSV_HEADERS` from `src/data_store.py`. -/
def CSV_HEADERS : Row :=
  ["date", "start_time", "end_time", "project", "task_type", "description"]

/-- Constant `config.REMINDER_INTERVAL_MINUTES` of src/config.py: the constant that
`DataStore.save_entry` imports to estimate the first entry's start time. -/
def REMINDER_INTERVAL_MINUTES : Nat := 45

/-- Model of `LogEntry` from `src/data_store.py` as it can occur on the read path:
`csv.DictReader` fills fields missing from a short row with its `restval`,
which is Python `None`, so every field is `Option String` (`none` = `None`). -/
structure LogEntry where
  date : Option String
  start_time : Option String
  end_time : Option String
  project : Option String
  task_type : Option String
  description : Option String
deriving DecidableEq, Repr

/-- A `LogEntry` as produced by `DataStore.save_entry`: there every field is
an actual `str`. -/
structure PlainEntry where
  date : String
  start_time : String
  end_time : String
  project : String
  task_type : String
  description : String
deriving DecidableEq, Repr

/-- The CSV row `save_entry` writes for an entry (the `writer.writerow`
argument list). -/
def PlainEntry.row (e : PlainEntry) : Row :=
  [e.date, e.start_time, e.end_time, e.project, e.task_type, e.description]

/-- View of a written entry as a read-path `LogEntry` (all fields present). -/
def PlainEntry.toLog (e : PlainEntry) : LogEntry :=
  ⟨some e.date, some e.start_time, some e.end_time,
   some e.project, some e.task_type, some e.description⟩

/-- Index of the last occurrence of `key` in the header row.  `DictReader`
builds `dict(zip(fieldnames, row))` (plus `restval` fill), in which a
duplicated field name is bound to the value at its last position. -/
def lastIdx : List String → String → Option Nat
  | [], _ => none
  | h :: t, k =>
    match lastIdx t k with
    | some i => some (i + 1)
    | none => if h = k then some 0 else none

/-- Access `row[key]` on a `csv.DictReader` row dict: outer `none` models the
`KeyError` raised when the header lacks `key`; `some none` models the
`restval` fill (`None`) when the row is shorter than the header; extra cells
beyond the header land under `restkey` and are never consulted. -/
def rowField (header row : List String) (key : String) : Option (Option String) :=
  match lastIdx header key with
  | none => none
  | some i => some (row.get? i)

/-- The `try: LogEntry(...) except KeyError: continue` body of
`DataStore.get_entries`: builds the entry from a row dict, `none` when any
required column is absent from the header (the only way `KeyError` fires). -/
def readRow (header row : List String) : Option LogEntry := do
  let d ← rowField header row "date"
  let st ← rowField header row "start_time"
  let et ← rowField header row "end_time"
  let pr ← rowField header row "project"
  let tt ← rowField header row "task_type"
  let ds ← rowField header row "description"
  pure ⟨d, st, et, pr, tt, ds⟩

/-- Model of `DataStore.get_entries`: missing file gives `[]`; otherwise the first row
is the `DictReader` field-name row, blank rows are skipped (`while row == []`),
and each remaining row becomes a `LogEntry` unless `KeyError` skips it. -/
def get_entries (file : Option CsvFile) : List LogEntry :=
  match file with
  | none => []
  | some [] => []
  | some (header :: rows) =>
    (rows.filter fun r => !r.isEmpty).filterMap fun r => readRow header r

/-- Model of `DataStore.get_last_end_time`: the value `entries[-1].end_time` when the day has
entries (a value that can itself be `None`), else `None`. -/
def get_last_end_time (file : Option CsvFile) : Option String :=
  match (get_entries file).getLast? with
  | some e => e.end_time
  | none => none

/-- Zero-padded two-digit rendering used by `%H`/`%M` in `strftime`. -/
def pad2 (n : Nat) : String :=
  (if n < 10 then "0" else "") ++ toString n

/-- Rendering `dt.strftime('%H:%M')` for a wall-clock instant given as total minutes
(since an arbitrary midnight-aligned origin). -/
def fmtHM (totalMinutes : Nat) : String :=
  pad2 (totalMinutes / 60 % 24) ++ ":" ++ pad2 (totalMinutes % 60)

/-- Model of `DataStore.save_entry` from src/data_store.py.  `now` is the wall clock in
total minutes, `dateStr` is `today.strftime('%Y-%m-%d')`.  The function
creates the store with the header row when absent, derives `start_time` from
the previous entry's `end_time` when that value is truthy (non-`None`,
non-empty) and otherwise from `now` minus `REMINDER_INTERVAL_MINUTES`, and
appends exactly one row.  Returns the new file contents and the entry. -/
def save_entry (dateStr : String) (now : Nat)
    (project task_type description : String) (file : Option CsvFile) :
    Option CsvFile × PlainEntry :=
  let rows : CsvFile :=
    match file with
    | none => [CSV_HEADERS]
    | some rs => rs
  let start_time : String :=
    match get_last_end_time (some rows) with
    | some s => if s = "" then fmtHM (now - REMINDER_INTERVAL_MINUTES) else s
    | none => fmtHM (now - REMINDER_INTERVAL_MINUTES)
  let entry : PlainEntry :=
    ⟨dateStr, start_time, fmtHM now, project, task_type, description⟩
  (some (rows ++ [entry.row]), entry)

/-- One capture: the wall clock at save time plus the captured fields. -/
structure AppendIn where
  now : Nat
  project : String
  task_type : String
  description : String
deriving DecidableEq, Repr

/-- Sequential `save_entry` calls on one day, returning the final file and
the entries in append order. -/
def runAppends (dateStr : String) :
    Option CsvFile → List AppendIn → Option CsvFile × List PlainEntry
  | f, [] => (f, [])
  | f, a :: rest =>
    let r := save_entry dateStr a.now a.project a.task_type a.description f
    let r2 := runAppends dateStr r.1 rest
    (r2.1, r.2 :: r2.2)

/-! ### Summary aggregator (`DataStore.get_summary`, `DataStore.format_summary`) -/

/-- Value of an ASCII decimal digit, the character class `\d` matched by
`_strptime` for `%H`/`%M`. -/
def digitVal (c : Char) : Option Nat :=
  if 48 ≤ c.toNat ∧ c.toNat ≤ 57 then some (c.toNat - 48) else none

/-- A one- or two-digit decimal component (the `\d\d|\d` alternatives used by
`strptime`'s `%H` and `%M` patterns). -/
def parse2 (s : List Char) : Option Nat :=
  match s with
  | [c] => digitVal c
  | [c1, c2] => do
    let d1 ← digitVal c1
    let d2 ← digitVal c2
    pure (d1 * 10 + d2)
  | _ => none

/-- Model of `datetime.strptime(s, '%H:%M')` reduced to minutes since midnight:
`none` models the `ValueError` (bad digits, out-of-range hour/minute, or
unconverted data remaining). -/
def parseHM (s : String) : Option Nat :=
  match s.toList.splitOn ':' with
  | [h, m] => do
    let hv ← parse2 h
    let mv ← parse2 m
    if hv ≤ 23 ∧ mv ≤ 59 then pure (hv * 60 + mv) else none
  | _ => none

/-- The duration computation of `DataStore.get_summary` for one entry.
`Except.error ()` models the `TypeError` that `strptime` raises on a `None`
argument — the surrounding handler catches only `ValueError`, so that error
escapes `get_summary`.  A `ValueError` on `start_time` is caught before
`end_time` is ever parsed, mirroring the statement order in the `try` block. -/
def durationMinutes (st et : Option String) : Except Unit Int :=
  match st with
  | none => Except.error ()
  | some s =>
    match parseHM s with
    | none => Except.ok 0
    | some sv =>
      match et with
      | none => Except.error ()
      | some e =>
        match parseHM e with
        | none => Except.ok 0
        | some ev =>
          let d : Int := (ev : Int) - (sv : Int)
          Except.ok (if d < 0 then 0 else d)

/-- Python `x or default` for the `str`-or-`None` fields: `None` and `""` are
falsy. -/
def orDefault (x : Option String) (d : String) : String :=
  match x with
  | none => d
  | some v => if v = "" then d else v

/-- The per-(project, task_type) accumulator `{'minutes': …,
'descriptions': […]}`. -/
structure Bucket where
  minutes : Int
  descriptions : List String
deriving DecidableEq, Repr

/-- A Python `dict` in insertion order, modelled as an association list with
the keys pairwise distinct by construction. -/
abbrev Summary := List (String × List (String × Bucket))

/-- Python `d[k]` lookup on an insertion-ordered dict modelled as an association
list. -/
def alookup {α : Type} : List (String × α) → String → Option α
  | [], _ => none
  | (k0, v) :: rest, k => if k0 = k then some v else alookup rest k

/-- Python dict "ensure key, then mutate its value": an existing key is
updated in place, an absent key is appended at the end (dict insertion
order); the new value is `f` of the old value or of the default `d`. -/
def updateAssoc {α : Type} : List (String × α) → String → α → (α → α) → List (String × α)
  | [], k, d, f => [(k, f d)]
  | (k0, v) :: rest, k, d, f =>
    if k0 = k then (k0, f v) :: rest else (k0, v) :: updateAssoc rest k d f

/-- The bucket update of one `get_summary` loop iteration: add the duration,
and append the description when it is truthy. -/
def bucketAdd (d : Int) (desc : Option String) (b : Bucket) : Bucket :=
  ⟨b.minutes + d,
   match desc with
   | none => b.descriptions
   | some ds => if ds = "" then b.descriptions else b.descriptions ++ [ds]⟩

/-- The `summary[project][task_type]` creation/update of one loop iteration
(`if project not in summary: … if task_type not in …: … +=`). -/
def addEntry (s : Summary) (project task_type : String) (d : Int)
    (desc : Option String) : Summary :=
  updateAssoc s project [] fun tm => updateAssoc tm task_type ⟨0, []⟩ (bucketAdd d desc)

/-- One iteration of the `for entry in entries` loop of
`DataStore.get_summary`. -/
def summaryStep (s : Summary) (e : LogEntry) : Except Unit Summary :=
  match durationMinutes e.start_time e.end_time with
  | Except.error u => Except.error u
  | Except.ok d =>
    Except.ok (addEntry s (orDefault e.project "No Project")
      (orDefault e.task_type "Other") d e.description)

/-- The `get_summary` loop over a list of entries. -/
def summarizeEntries : Summary → List LogEntry → Except Unit Summary
  | s, [] => Except.ok s
  | s, e :: rest =>
    match summaryStep s e with
    | Except.error u => Except.error u
    | Except.ok s2 => summarizeEntries s2 rest

/-- Model of `DataStore.get_summary`: aggregate the day's entries.  `Except.error ()`
is the uncaught `TypeError` path. -/
def get_summary (file : Option CsvFile) : Except Unit Summary :=
  summarizeEntries [] (get_entries file)

/-- The `time_str` rendering of `DataStore.format_summary`: Python `//` and
`%` are floor division and floor modulus, hence `Int.fdiv` / `Int.fmod`. -/
def timeStr (m : Int) : String :=
  let hours := Int.fdiv m 60
  let minutes := Int.fmod m 60
  if hours > 0 then toString hours ++ "h " ++ toString minutes ++ "m"
  else toString minutes ++ "m"

/-- The lines one `(project, task_type)` group contributes: the headline, one
bullet per stored description, and the blank separator line. -/
def groupBlock (project task_type : String) (b : Bucket) : List String :=
  (project ++ " – " ++ task_type ++ " – " ++ timeStr b.minutes)
    :: b.descriptions.map (fun d => "  • " ++ d) ++ [""]

/-- The `lines` list built by `DataStore.format_summary`: projects in
`sorted` order, task types in `sorted` order within each project (`sorted`
on Python strings is the lexicographic code-point order, i.e. `≤` on
`String`). -/
def formatLines (s : Summary) : List String :=
  (List.insertionSort (· ≤ ·) (s.map Prod.fst)).flatMap fun p =>
    let tm := (alookup s p).getD []
    (List.insertionSort (· ≤ ·) (tm.map Prod.fst)).flatMap fun t =>
      groupBlock p t ((alookup tm t).getD ⟨0, []⟩)

/-- Model of `DataStore.format_summary`; here `String.trim` models the final
`str.strip()` (the rendered lines begin with entry text and end with the
blank separator, so only the trailing newline is at stake). -/
def format_summary (file : Option CsvFile) : Except Unit String :=
  match get_summary file with
  | Except.error u => Except.error u
  | Except.ok s =>
    if s.isEmpty then Except.ok "No entries logged today."
    else Except.ok (String.intercalate "\n" (formatLines s)).trim

/-! ### `DataStore.get_all_projects` -/

/-- The truthy `entry.project` values of a day's entries, in read order
(`if entry.project: projects.add(entry.project)`). -/
def truthyProjects (entries : List LogEntry) : List String :=
  entries.filterMap fun e =>
    match e.project with
    | none => none
    | some p => if p = "" then none else some p

/-- Model of `DataStore.get_all_projects`, where `store i` is the day file for `i` days
before today, `i < 30`.  The Python `set` plus `sorted(list(…))` is modelled
as deduplication followed by a lexicographic sort (the set's iteration order
is irrelevant once sorted). -/
def get_all_projects (store : Nat → Option CsvFile) : List String :=
  let projects := ((List.range 30).map fun i => truthyProjects (get_entries (store i))).flatten
  List.insertionSort (· ≤ ·) projects.dedup

/-! ### Settings provider (`settings_dialog.load_settings`) -/

/-- A JSON value as far as the settings dict cares: numbers, strings, or
anything else. -/
inductive JVal where
  | num (n : Int)
  | str (s : String)
  | other
deriving DecidableEq, Repr

/-- The `defaults` dict of `load_settings`, built from the `config.py`
constants (`WORKLOG_DIR = Path("D:/dailylogs")` rendered as a string). -/
def settings_defaults : List (String × JVal) :=
  [("reminder_interval_minutes", JVal.num 45),
   ("snooze_duration_minutes", JVal.num 10),
   ("worklog_dir", JVal.str "D:/dailylogs")]

/-- Python `d[k] = v`: replace the value of an existing key in place, append
an absent key at the end. -/
def dictSet {α : Type} : List (String × α) → String → α → List (String × α)
  | [], k, v => [(k, v)]
  | (k0, v0) :: rest, k, v =>
    if k0 = k then (k0, v) :: rest else (k0, v0) :: dictSet rest k v

/-- Python `defaults.update(saved)`: set every key of `saved` in order. -/
def dict_update {α : Type} (base : List (String × α)) (kvs : List (String × α)) :
    List (String × α) :=
  kvs.foldl (fun d kv => dictSet d kv.1 kv.2) base

/-- State of the resolved settings file as `load_settings` sees it:
absent, present-but-unreadable/corrupt (any exception from `open` /
`json.load` / `update`, swallowed by the bare `except`), or parsed into a
JSON object. -/
inductive SettingsFile where
  | missing
  | corrupt
  | parsed (kvs : List (String × JVal))

/-- Model of `settings_dialog.load_settings`: start from the hardcoded defaults and
overlay the persisted values; any failure leaves the defaults untouched and
raises nothing. -/
def load_settings : SettingsFile → List (String × JVal)
  | SettingsFile.missing => settings_defaults
  | SettingsFile.corrupt => settings_defaults
  | SettingsFile.parsed kvs => dict_update settings_defaults kvs

/-- First-biased choice on `Option`, used to state the merge property. -/
def optOr {α : Type} : Option α → Option α → Option α
  | some v, _ => some v
  | none, b => b

/-- The start time `save_entry` derives when the day's readable entries so
far are exactly `prev` (all written by `save_entry`). -/
def startTimeFor (prev : List PlainEntry) (now : Nat) : String :=
  match (prev.getLast?).map PlainEntry.end_time with
  | some s => if s = "" then fmtHM (now - REMINDER_INTERVAL_MINUTES) else s
  | none => fmtHM (now - REMINDER_INTERVAL_MINUTES)

/-- The entry list a sequence of `save_entry` calls produces, given the
(truthiness-relevant) end time of the last entry already stored. -/
def expectedEntries (dateStr : String) : Option String → List AppendIn → List PlainEntry
  | _, [] => []
  | le, a :: rest =>
    let st : String :=
      match le with
      | some s => if s = "" then fmtHM (a.now - REMINDER_INTERVAL_MINUTES) else s
      | none => fmtHM (a.now - REMINDER_INTERVAL_MINUTES)
    ⟨dateStr, st, fmtHM a.now, a.project, a.task_type, a.description⟩
      :: expectedEntries dateStr (some (fmtHM a.now)) rest

/-- Lookup of `summary[project][task_type]` as a partial function. -/
def lookup2 (s : Summary) (p t : String) : Option Bucket :=
  match alookup s p with
  | none => none
  | some tm => alookup tm t

/-! ## Helper lemmas -/

theorem readRow_row (e : PlainEntry) :
    readRow CSV_HEADERS e.row = some e.toLog := rfl

theorem row_ne_nil (e : PlainEntry) : (e.row.isEmpty = false) := rfl

/-- Reading back a store written entirely by `save_entry`: every row parses,
in file order. -/
theorem get_entries_app (l : List PlainEntry) :
    get_entries (some (CSV_HEADERS :: l.map PlainEntry.row)) = l.map PlainEntry.toLog := by
  induction l with
  | nil => rfl
  | cons e rest ih =>
    show ((e.row :: rest.map PlainEntry.row).filter fun r => !r.isEmpty).filterMap
        (fun r => readRow CSV_HEADERS r) = _
    rw [List.filter_cons_of_pos (by simp [row_ne_nil]),
      List.filterMap_cons_some (readRow_row e)]
    exact congrArg (e.toLog :: ·) ih

theorem get_last_end_time_app (l : List PlainEntry) :
    get_last_end_time (some (CSV_HEADERS :: l.map PlainEntry.row))
      = (l.getLast?).map PlainEntry.end_time := by
  unfold get_last_end_time
  rw [get_entries_app, List.getLast?_map]
  cases l.getLast? with
  | none => rfl
  | some e => rfl

theorem fmtHM_ne_empty (t : Nat) : fmtHM t ≠ "" := by
  intro h
  have hl : (fmtHM t).length = 0 := by rw [h]; rfl
  unfold fmtHM at hl
  rw [String.length_append, String.length_append] at hl
  have hc : (":" : String).length = 1 := rfl
  omega

theorem save_entry_on_app (dateStr : String) (now : Nat) (p t d : String)
    (prev : List PlainEntry) :
    save_entry dateStr now p t d (some (CSV_HEADERS :: prev.map PlainEntry.row))
      = (some (CSV_HEADERS ::
            (prev ++ [(⟨dateStr, startTimeFor prev now, fmtHM now, p, t, d⟩ : PlainEntry)]).map
              PlainEntry.row),
         (⟨dateStr, startTimeFor prev now, fmtHM now, p, t, d⟩ : PlainEntry)) := by
  simp only [save_entry, startTimeFor]
  rw [get_last_end_time_app]
  cases h : (prev.getLast?).map PlainEntry.end_time with
  | none => simp [PlainEntry.row, List.map_append]
  | some s => cases hs : decide (s = "") <;> simp_all [PlainEntry.row, List.map_append]

theorem runAppends_on_app (dateStr : String) (inputs : List AppendIn) :
    ∀ prev : List PlainEntry,
      runAppends dateStr (some (CSV_HEADERS :: prev.map PlainEntry.row)) inputs
        = (some (CSV_HEADERS ::
              ((prev ++ expectedEntries dateStr ((prev.getLast?).map PlainEntry.end_time) inputs).map
                PlainEntry.row)),
           expectedEntries dateStr ((prev.getLast?).map PlainEntry.end_time) inputs) := by
  induction inputs with
  | nil => intro prev; simp [runAppends, expectedEntries]
  | cons a rest ih =>
    intro prev
    simp only [runAppends]
    rw [save_entry_on_app]
    rw [ih (prev ++ [(⟨dateStr, startTimeFor prev a.now, fmtHM a.now, a.project,
      a.task_type, a.description⟩ : PlainEntry)])]
    rw [List.getLast?_concat]
    simp only [Option.map_some', expectedEntries, startTimeFor, List.append_assoc,
      List.singleton_append]

theorem expected_head_start (dateStr : String) (rest : List AppendIn) (t : Nat) :
    ∀ y ∈ (expectedEntries dateStr (some (fmtHM t)) rest).head?, y.start_time = fmtHM t := by
  cases rest with
  | nil => intro y hy; simp [expectedEntries] at hy
  | cons b brest =>
    intro y hy
    simp only [expectedEntries, List.head?_cons, Option.mem_def, Option.some.injEq] at hy
    rw [← hy]
    simp [fmtHM_ne_empty t]

theorem expected_chain (dateStr : String) (inputs : List AppendIn) :
    ∀ le : Option String,
      List.Chain' (fun a b => b.start_time = a.end_time) (expectedEntries dateStr le inputs) := by
  induction inputs with
  | nil => intro le; simp [expectedEntries]
  | cons a rest ih =>
    intro le
    simp only [expectedEntries]
    rw [List.chain'_cons']
    exact ⟨fun y hy => expected_head_start dateStr rest a.now y hy, ih (some (fmtHM a.now))⟩

theorem runAppends_none_snd (dateStr : String) (inputs : List AppendIn) :
    (runAppends dateStr none inputs).2 = expectedEntries dateStr none inputs := by
  cases inputs with
  | nil => rfl
  | cons a rest =>
    have h : runAppends dateStr none (a :: rest)
        = runAppends dateStr (some (CSV_HEADERS :: ([] : List PlainEntry).map PlainEntry.row))
          (a :: rest) := rfl
    rw [h, runAppends_on_app]
    rfl

/-- C1: Appending entries sequentially on one (initially empty) day:
the first entry's `start_time` is `now` minus `REMINDER_INTERVAL_MINUTES`
and its `end_time` is `now`; every later entry's `start_time` equals the
`end_time` of the immediately preceding entry. -/
theorem c1_start_time_chain (dateStr : String) (inputs : List AppendIn) (i : Nat)
    (hi : i + 1 < ((runAppends dateStr none inputs).2).length) :
    (((runAppends dateStr none inputs).2).get ⟨i + 1, hi⟩).start_time
      = (((runAppends dateStr none inputs).2).get ⟨i, Nat.lt_of_succ_lt hi⟩).end_time
    ∧ ∀ a rest, inputs = a :: rest →
        ((runAppends dateStr none inputs).2).head? = some
          ⟨dateStr, fmtHM (a.now - REMINDER_INTERVAL_MINUTES), fmtHM a.now,
           a.project, a.task_type, a.description⟩ := by
  constructor
  · have hc := expected_chain dateStr inputs none
    rw [← runAppends_none_snd] at hc
    have := List.chain'_iff_get.mp hc i (by omega)
    exact this
  · intro a rest hinp
    subst hinp
    rw [runAppends_none_snd]
    rfl

/-- Witness for C1: two appends at 10:00 and 10:30 with the 45-minute
interval; the second entry starts when the first ended, and the first runs
09:15–10:00. -/
theorem c1_witness :
    (((runAppends "2024-01-02" none
        [⟨600, "Acme", "Development", "Fixed bug"⟩, ⟨630, "Acme", "Development", "More"⟩]).2).get
          ⟨1, by decide⟩).start_time
      = (((runAppends "2024-01-02" none
        [⟨600, "Acme", "Development", "Fixed bug"⟩, ⟨630, "Acme", "Development", "More"⟩]).2).get
          ⟨0, by decide⟩).end_time
    ∧ ∀ a rest,
        ([⟨600, "Acme", "Development", "Fixed bug"⟩,
          ⟨630, "Acme", "Development", "More"⟩] : List AppendIn) = a :: rest →
        ((runAppends "2024-01-02" none
          [⟨600, "Acme", "Development", "Fixed bug"⟩, ⟨630, "Acme", "Development", "More"⟩]).2).head?
          = some ⟨"2024-01-02", fmtHM (a.now - REMINDER_INTERVAL_MINUTES), fmtHM a.now,
             a.project, a.task_type, a.description⟩ :=
  c1_start_time_chain "2024-01-02"
    [⟨600, "Acme", "Development", "Fixed bug"⟩, ⟨630, "Acme", "Development", "More"⟩] 0 (by decide)

/-- Applying `filterMap` to a one-element list is the `Option.toList` of the image. -/
theorem filterMap_one {α β : Type} (f : α → Option β) (a : α) :
    List.filterMap f [a] = (f a).toList := by
  cases h : f a <;> simp [h]

theorem get_entries_append_one (header : Row) (rows : CsvFile) (e : PlainEntry) :
    get_entries (some (header :: (rows ++ [e.row])))
      = get_entries (some (header :: rows)) ++ (readRow header e.row).toList := by
  show ((rows ++ [e.row]).filter fun r => !r.isEmpty).filterMap (fun r => readRow header r) = _
  rw [List.filter_append, List.filterMap_append]
  have h1 : ([e.row].filter fun r => !r.isEmpty) = [e.row] := by
    simp [row_ne_nil]
  rw [h1, filterMap_one]
  rfl

/-- C2: Round trip: reading the day back after `save_entry` returns the
previously readable records followed by exactly the appended record, in file
order, and the stored fields are the ones `save_entry` returned (which carry
the given date, project, task type, description and `end_time = now`). -/
theorem c2_append_read_roundtrip (dateStr : String) (now : Nat)
    (project task_type description : String) (prev : List PlainEntry) :
    get_entries (save_entry dateStr now project task_type description
        (some (CSV_HEADERS :: prev.map PlainEntry.row))).1
      = prev.map PlainEntry.toLog
        ++ [(save_entry dateStr now project task_type description
              (some (CSV_HEADERS :: prev.map PlainEntry.row))).2.toLog]
    ∧ (save_entry dateStr now project task_type description
        (some (CSV_HEADERS :: prev.map PlainEntry.row))).2.date = dateStr
    ∧ (save_entry dateStr now project task_type description
        (some (CSV_HEADERS :: prev.map PlainEntry.row))).2.project = project
    ∧ (save_entry dateStr now project task_type description
        (some (CSV_HEADERS :: prev.map PlainEntry.row))).2.task_type = task_type
    ∧ (save_entry dateStr now project task_type description
        (some (CSV_HEADERS :: prev.map PlainEntry.row))).2.description = description
    ∧ (save_entry dateStr now project task_type description
        (some (CSV_HEADERS :: prev.map PlainEntry.row))).2.end_time = fmtHM now := by
  rw [save_entry_on_app]
  refine ⟨?_, rfl, rfl, rfl, rfl, rfl⟩
  show get_entries (some (CSV_HEADERS :: (prev ++ [_]).map PlainEntry.row)) = _
  rw [get_entries_app, List.map_append]
  rfl

/-- C9: `save_entry` only appends: on an existing store the new file is
the old rows unchanged plus the one new row; at the record level the
readable entries are the old entries followed by whatever the new row parses
to; on a missing store the file becomes the header plus the one new row. -/
theorem c9_append_never_rewrites (dateStr : String) (now : Nat) (p t d : String)
    (header : Row) (rows : CsvFile) :
    (save_entry dateStr now p t d (some (header :: rows))).1
      = some (header :: (rows ++ [(save_entry dateStr now p t d (some (header :: rows))).2.row]))
    ∧ get_entries (save_entry dateStr now p t d (some (header :: rows))).1
      = get_entries (some (header :: rows))
        ++ (readRow header (save_entry dateStr now p t d (some (header :: rows))).2.row).toList
    ∧ (save_entry dateStr now p t d none).1
      = some (CSV_HEADERS :: [(save_entry dateStr now p t d none).2.row]) := by
  refine ⟨rfl, ?_, rfl⟩
  exact get_entries_append_one header rows _

/-- C3 (divergence evidence): A data row missing required fields is
*not* excluded from `read`'s result: `csv.DictReader` fills the missing
columns with `None` instead of raising `KeyError`, so the row comes back as
an entry with `None` fields.  The `except KeyError: continue` branch only
fires when the *header* lacks a required column, in which case every row of
the file is dropped. -/
theorem c3_short_row_not_skipped :
    get_entries (some [CSV_HEADERS, ["2024-01-01", "09:00"]])
      = [⟨some "2024-01-01", some "09:00", none, none, none, none⟩]
    ∧ get_entries (some [["date", "start_time", "end_time", "project", "task_type"],
        ["2024-01-01", "09:00", "10:00", "P", "Dev", "x"]]) = [] :=
  ⟨rfl, rfl⟩

/-- C4 (divergence evidence): An unparseable *string* time is clamped
to a zero contribution (`ValueError` is caught), but an entry whose
`end_time` is `None` — produced by a short stored row — makes `get_summary`
raise `TypeError` (only `ValueError` is caught), instead of contributing 0:
the whole aggregation fails. -/
theorem c4_none_time_raises :
    get_summary (some [CSV_HEADERS, ["2024-01-01", "09:00"]]) = Except.error ()
    ∧ durationMinutes (some "09:00") none = Except.error ()
    ∧ durationMinutes (some "10:00") (some "09:00") = Except.ok 0
    ∧ durationMinutes (some "25:00") (some "10:00") = Except.ok 0 :=
  ⟨rfl, rfl, rfl, rfl⟩

/-- C6: A day with no readable entries: `get_summary` is the empty
mapping and `format_summary` is the fixed "no entries" string. -/
theorem c6_empty_day (file : Option CsvFile) (h : get_entries file = []) :
    get_summary file = Except.ok []
    ∧ format_summary file = Except.ok "No entries logged today." := by
  have hs : get_summary file = Except.ok [] := by
    unfold get_summary
    rw [h]
    rfl
  refine ⟨hs, ?_⟩
  unfold format_summary
  rw [hs]
  rfl

/-- Witness for C6 at the concrete "no store file" input. -/
theorem c6_witness :
    get_summary none = Except.ok []
    ∧ format_summary none = Except.ok "No entries logged today." :=
  c6_empty_day none rfl

theorem alookup_updateAssoc_self {α : Type} (l : List (String × α)) (k : String)
    (d : α) (f : α → α) :
    alookup (updateAssoc l k d f) k = some (f ((alookup l k).getD d)) := by
  induction l with
  | nil => simp [updateAssoc, alookup]
  | cons kv rest ih =>
    obtain ⟨k0, v⟩ := kv
    by_cases h : k0 = k
    · subst h
      simp [updateAssoc, alookup]
    · simp [updateAssoc, alookup, h, ih]

theorem alookup_updateAssoc_ne {α : Type} (l : List (String × α)) (k k' : String)
    (d : α) (f : α → α) (h : k' ≠ k) :
    alookup (updateAssoc l k d f) k' = alookup l k' := by
  induction l with
  | nil => simp [updateAssoc, alookup, Ne.symm h]
  | cons kv rest ih =>
    obtain ⟨k0, v⟩ := kv
    by_cases h0 : k0 = k
    · subst h0
      simp [updateAssoc, alookup, Ne.symm h]
    · by_cases h1 : k0 = k'
      · subst h1
        simp [updateAssoc, alookup, h0]
      · simp [updateAssoc, alookup, h0, h1, ih]

theorem lookup2_outer (s : Summary) (p t : String) :
    alookup ((alookup s p).getD []) t = lookup2 s p t := by
  cases h : alookup s p <;> simp [lookup2, h, alookup]

theorem bucketAdd_eq (d : Int) (desc : Option String) (b : Bucket) :
    bucketAdd d desc b
      = ⟨b.minutes + d,
         b.descriptions ++
           match desc with
           | none => []
           | some ds => if ds = "" then [] else [ds]⟩ := by
  unfold bucketAdd
  cases desc with
  | none => simp
  | some ds => by_cases h : ds = "" <;> simp [h]

/-- C7: One `get_summary` iteration on an entry whose duration
evaluates without `TypeError`: the entry is bucketed under its project and
task type with the empty/`None` values replaced by the fixed placeholders
`"No Project"` / `"Other"`; the duration is added to that bucket's minutes,
the description is appended to that bucket's list exactly when non-empty,
and no other bucket changes. -/
theorem c7_bucket_accumulation (s : Summary) (e : LogEntry) (dur : Int)
    (h : durationMinutes e.start_time e.end_time = Except.ok dur) :
    ∃ s2, summaryStep s e = Except.ok s2
      ∧ lookup2 s2 (orDefault e.project "No Project") (orDefault e.task_type "Other")
          = some ⟨((lookup2 s (orDefault e.project "No Project")
                      (orDefault e.task_type "Other")).getD ⟨0, []⟩).minutes + dur,
                  ((lookup2 s (orDefault e.project "No Project")
                      (orDefault e.task_type "Other")).getD ⟨0, []⟩).descriptions ++
                    match e.description with
                    | none => []
                    | some ds => if ds = "" then [] else [ds]⟩
      ∧ (∀ p t, ¬(p = orDefault e.project "No Project"
            ∧ t = orDefault e.task_type "Other") →
          lookup2 s2 p t = lookup2 s p t)
      ∧ ((e.project = none ∨ e.project = some "") →
          orDefault e.project "No Project" = "No Project")
      ∧ ((e.task_type = none ∨ e.task_type = some "") →
          orDefault e.task_type "Other" = "Other") := by
  refine ⟨addEntry s (orDefault e.project "No Project") (orDefault e.task_type "Other")
      dur e.description, ?_, ?_, ?_, ?_, ?_⟩
  · unfold summaryStep
    rw [h]
  · unfold lookup2 addEntry
    rw [alookup_updateAssoc_self]
    show alookup (updateAssoc ((alookup s (orDefault e.project "No Project")).getD [])
        (orDefault e.task_type "Other") ⟨0, []⟩ (bucketAdd dur e.description))
        (orDefault e.task_type "Other") = _
    rw [alookup_updateAssoc_self, bucketAdd_eq, lookup2_outer]
    rfl
  · intro p t hpt
    by_cases hp : p = orDefault e.project "No Project"
    · subst hp
      have ht : t ≠ orDefault e.task_type "Other" := fun hteq => hpt ⟨rfl, hteq⟩
      unfold lookup2 addEntry
      rw [alookup_updateAssoc_self]
      show alookup (updateAssoc ((alookup s (orDefault e.project "No Project")).getD [])
          (orDefault e.task_type "Other") ⟨0, []⟩ (bucketAdd dur e.description)) t = _
      rw [alookup_updateAssoc_ne _ _ _ _ _ ht, lookup2_outer]
      rfl
    · unfold lookup2 addEntry
      rw [alookup_updateAssoc_ne _ _ _ _ _ hp]
  · rintro (hp | hp) <;> simp [orDefault, hp]
  · rintro (hp | hp) <;> simp [orDefault, hp]

/-- Witness for C7: a 09:00–10:00 entry with empty project, `None` task
type and a non-empty description, bucketed into an empty summary. -/
theorem c7_witness :
    ∃ s2, summaryStep []
        ⟨some "d", some "09:00", some "10:00", some "", none, some "did x"⟩ = Except.ok s2
      ∧ lookup2 s2 (orDefault (some "") "No Project") (orDefault none "Other")
          = some ⟨((lookup2 [] (orDefault (some "") "No Project")
                      (orDefault none "Other")).getD ⟨0, []⟩).minutes + 60,
                  ((lookup2 [] (orDefault (some "") "No Project")
                      (orDefault none "Other")).getD ⟨0, []⟩).descriptions ++
                    match (some "did x" : Option String) with
                    | none => []
                    | some ds => if ds = "" then [] else [ds]⟩
      ∧ (∀ p t, ¬(p = orDefault (some "") "No Project" ∧ t = orDefault none "Other") →
          lookup2 s2 p t = lookup2 [] p t)
      ∧ (((some "" : Option String) = none ∨ (some "" : Option String) = some "") →
          orDefault (some "") "No Project" = "No Project")
      ∧ (((none : Option String) = none ∨ (none : Option String) = some "") →
          orDefault none "Other" = "Other") :=
  c7_bucket_accumulation []
    ⟨some "d", some "09:00", some "10:00", some "", none, some "did x"⟩ 60 rfl

/-- C5: `format_summary` layout: groups come out sorted by project and
then by task type (shown on inputs stored in reverse order), each group is
the `"<project> – <task_type> – <time>"` headline followed by one indented
bullet per stored description and a blank separator line, and the time
renders as `"Ym"` below 60 total minutes and as `"Xh Ym"` from 60 on. -/
theorem c5_format_layout (p1 p2 u1 u2 t1 t2 : String) (b1 b2 : Bucket)
    (hp : p1 < p2) (hu : u1 < u2) (m : Int) (hm : 0 ≤ m) :
    formatLines [(p2, [(t2, b2)]), (p1, [(t1, b1)])]
      = groupBlock p1 t1 b1 ++ groupBlock p2 t2 b2
    ∧ formatLines [(p1, [(u2, b2), (u1, b1)])]
      = groupBlock p1 u1 b1 ++ groupBlock p1 u2 b2
    ∧ groupBlock p1 t1 b1
      = (p1 ++ " – " ++ t1 ++ " – " ++ timeStr b1.minutes)
          :: (b1.descriptions.map fun d => "  • " ++ d) ++ [""]
    ∧ (m < 60 → timeStr m = toString m ++ "m")
    ∧ (60 ≤ m → timeStr m = toString (m / 60) ++ "h " ++ toString (m % 60) ++ "m") := by
  have h21 : ¬(p2 ≤ p1) := not_le.mpr hp
  have hne21 : p2 ≠ p1 := ne_of_gt hp
  have hu21 : ¬(u2 ≤ u1) := not_le.mpr hu
  have hu21l : ¬(u2.data ≤ u1.data) := fun hle => hu21 (String.le_iff_toList_le.mpr hle)
  have hneu21 : u2 ≠ u1 := ne_of_gt hu
  refine ⟨?_, ?_, rfl, ?_, ?_⟩
  · simp [formatLines, List.insertionSort, List.orderedInsert, alookup, h21, hne21]
  · simp [formatLines, List.insertionSort, List.orderedInsert, alookup, hu21, hu21l, hneu21]
  · intro hlt
    have hd : Int.fdiv m 60 = 0 := by
      rw [Int.fdiv_eq_ediv _ (by norm_num)]
      exact Int.ediv_eq_zero_of_lt hm hlt
    have hmod : Int.fmod m 60 = m := by
      rw [Int.fmod_eq_emod _ (by norm_num)]
      exact Int.emod_eq_of_lt hm hlt
    simp [timeStr, hd, hmod]
  · intro hge
    have hd : Int.fdiv m 60 = m / 60 := Int.fdiv_eq_ediv _ (by norm_num)
    have hmod : Int.fmod m 60 = m % 60 := Int.fmod_eq_emod _ (by norm_num)
    have hpos : 0 < m / 60 :=
      lt_of_lt_of_le Int.zero_lt_one ((Int.le_ediv_iff_mul_le (by norm_num)).mpr (by omega))
    simp [timeStr, hd, hmod, hpos]

/-- Witness for C5 at concrete projects/task types and the 59/60 boundary. -/
theorem c5_witness :
    (formatLines [("B", [("Dev", ⟨60, ["x"]⟩)]), ("A", [("Meet", ⟨59, ["y"]⟩)])]
      = groupBlock "A" "Meet" ⟨59, ["y"]⟩ ++ groupBlock "B" "Dev" ⟨60, ["x"]⟩)
    ∧ (formatLines [("A", [("Review", ⟨60, ["x"]⟩), ("Meet", ⟨59, ["y"]⟩)])]
      = groupBlock "A" "Meet" ⟨59, ["y"]⟩ ++ groupBlock "A" "Review" ⟨60, ["x"]⟩)
    ∧ groupBlock "A" "Meet" ⟨59, ["y"]⟩
      = ("A" ++ " – " ++ "Meet" ++ " – " ++ timeStr (⟨59, ["y"]⟩ : Bucket).minutes)
          :: ((⟨59, ["y"]⟩ : Bucket).descriptions.map fun d => "  • " ++ d) ++ [""]
    ∧ ((59 : Int) < 60 → timeStr 59 = toString (59 : Int) ++ "m")
    ∧ ((60 : Int) ≤ 59 → timeStr 59 = toString ((59 : Int) / 60) ++ "h "
        ++ toString ((59 : Int) % 60) ++ "m") :=
  c5_format_layout "A" "B" "Meet" "Review" "Meet" "Dev" ⟨59, ["y"]⟩ ⟨60, ["x"]⟩
    (String.lt_iff_toList_lt.mpr (by decide)) (String.lt_iff_toList_lt.mpr (by decide))
    59 (by decide)

/-! ### Settings lemmas -/

theorem alookup_dictSet {α : Type} (l : List (String × α)) (k k' : String) (v : α) :
    alookup (dictSet l k v) k' = if k = k' then some v else alookup l k' := by
  induction l with
  | nil => simp [dictSet, alookup]
  | cons kv rest ih =>
    obtain ⟨k0, v0⟩ := kv
    by_cases h : k0 = k <;> by_cases h' : k0 = k' <;> by_cases h2 : k = k' <;>
      simp_all [dictSet, alookup]

theorem alookup_eq_none_of_not_mem {α : Type} (l : List (String × α)) (k : String)
    (h : k ∉ l.map Prod.fst) : alookup l k = none := by
  induction l with
  | nil => rfl
  | cons kv rest ih =>
    obtain ⟨k0, v0⟩ := kv
    simp only [List.map_cons, List.mem_cons, not_or] at h
    have hne : k0 ≠ k := fun he => h.1 he.symm
    simp [alookup, hne, ih h.2]

theorem alookup_dict_update {α : Type} (kvs : List (String × α)) :
    ∀ (base : List (String × α)) (k : String), (kvs.map Prod.fst).Nodup →
      alookup (dict_update base kvs) k = optOr (alookup kvs k) (alookup base k) := by
  induction kvs with
  | nil => intro base k _; simp [dict_update, alookup, optOr]
  | cons kv rest ih =>
    intro base k h
    obtain ⟨k0, v0⟩ := kv
    simp only [List.map_cons, List.nodup_cons] at h
    show alookup (dict_update (dictSet base k0 v0) rest) k = _
    rw [ih (dictSet base k0 v0) k h.2, alookup_dictSet]
    by_cases hk : k0 = k
    · subst hk
      rw [alookup_eq_none_of_not_mem rest k0 h.1]
      simp [alookup, optOr]
    · simp [alookup, hk, optOr]

/-- C8: `load_settings` on a missing or unreadable/corrupt settings
file returns exactly the defaults (no error escapes the bare `except`); on
a parsed JSON object it merges the persisted values over the defaults:
every key reads as the persisted value when one exists, else as the
default. -/
theorem c8_load_settings_merge (kvs : List (String × JVal))
    (hk : (kvs.map Prod.fst).Nodup) (k : String) :
    load_settings SettingsFile.missing = settings_defaults
    ∧ load_settings SettingsFile.corrupt = settings_defaults
    ∧ alookup (load_settings (SettingsFile.parsed kvs)) k
        = optOr (alookup kvs k) (alookup settings_defaults k) :=
  ⟨rfl, rfl, alookup_dict_update kvs settings_defaults k hk⟩

/-- Witness for C8: an override of `worklog_dir` wins, the other keys keep
their defaults. -/
theorem c8_witness :
    load_settings SettingsFile.missing = settings_defaults
    ∧ load_settings SettingsFile.corrupt = settings_defaults
    ∧ alookup (load_settings (SettingsFile.parsed [("worklog_dir", JVal.str "E:/logs")]))
        "worklog_dir"
      = optOr (alookup [("worklog_dir", JVal.str "E:/logs")] "worklog_dir")
          (alookup settings_defaults "worklog_dir") :=
  c8_load_settings_merge [("worklog_dir", JVal.str "E:/logs")] (by decide) "worklog_dir"

/-! ### `get_all_projects` lemmas -/

theorem mem_truthyProjects (entries : List LogEntry) (p : String) :
    p ∈ truthyProjects entries ↔ p ≠ "" ∧ ∃ e ∈ entries, e.project = some p := by
  simp only [truthyProjects, List.mem_filterMap]
  constructor
  · rintro ⟨e, he, hm⟩
    cases hp : e.project with
    | none => rw [hp] at hm; simp at hm
    | some q =>
      rw [hp] at hm
      change (if q = "" then (none : Option String) else some q) = some p at hm
      by_cases hq : q = ""
      · rw [if_pos hq] at hm
        cases hm
      · rw [if_neg hq] at hm
        injection hm with hqp
        subst hqp
        exact ⟨hq, e, he, hp⟩
  · rintro ⟨hp, e, he, hpe⟩
    refine ⟨e, he, ?_⟩
    rw [hpe]
    change (if p = "" then (none : Option String) else some p) = some p
    rw [if_neg hp]

/-- C10: `get_all_projects` is strictly sorted (lexicographic
ascending), duplicate-free, and contains a string exactly when it is the
non-empty project field of some entry readable from one of the 30 day files
(today and the 29 preceding days); in particular `""` never appears. -/
theorem c10_get_all_projects (store : Nat → Option CsvFile) :
    List.Sorted (· < ·) (get_all_projects store)
    ∧ (get_all_projects store).Nodup
    ∧ ∀ p, p ∈ get_all_projects store ↔
        ∃ i, i < 30 ∧ p ≠ "" ∧ ∃ e ∈ get_entries (store i), e.project = some p := by
  have hnodup : (get_all_projects store).Nodup := by
    unfold get_all_projects
    exact (List.perm_insertionSort _ _).nodup_iff.mpr (List.nodup_dedup _)
  refine ⟨?_, hnodup, ?_⟩
  · have hsorted : List.Sorted (· ≤ ·) (get_all_projects store) := by
      unfold get_all_projects
      exact List.sorted_insertionSort _ _
    exact hsorted.lt_of_le hnodup
  · intro p
    unfold get_all_projects
    rw [(List.perm_insertionSort _ _).mem_iff, List.mem_dedup]
    simp only [List.mem_flatten, List.mem_map, List.mem_range]
    constructor
    · rintro ⟨l, ⟨i, hi, rfl⟩, hpl⟩
      obtain ⟨hp, e, he, hpe⟩ := (mem_truthyProjects _ _).mp hpl
      exact ⟨i, hi, hp, e, he, hpe⟩
    · rintro ⟨i, hi, hp, e, he, hpe⟩
      exact ⟨truthyProjects (get_entries (store i)), ⟨i, hi, rfl⟩,
        (mem_truthyProjects _ _).mpr ⟨hp, e, he, hpe⟩⟩

end WorkLogger
